import Mathlib

/-!
# Verification of the kubebuilder-declarative-pattern reconciliation core

Shallow embedding of the reconciliation pipeline of
`sigs.k8s.io/kubebuilder-declarative-pattern` (justinsb fork), covering:

* the preflight version gate (`pkg/patterns/addon/pkg/status/preflight.go`,
  final revision: `NewVersionCheck` / `versionCheck.VersionCheck`);
* the reconciler (`pkg/patterns/declarative/reconciler.go`:
  `Reconciler.Reconcile`, `Reconciler.reconcileExists`,
  `Reconciler.BuildDeploymentObjectsWithFs`, `parseListKind`, the
  ignore-annotation filter and `injectOwnerRef`);
* the dynamic watch subsystem (`pkg/patterns/declarative/pkg/watch/dynamic.go`:
  `dynamicWatch.AddForGVR`, `dynamicWatch.watchUntilClosed`, `WatchDelay`).

External collaborators (the Kubernetes client, the apply capability, the
manifest loader, logging, metrics) are modelled as explicit parameters:
side effects become values threaded through the state, and each external
call's outcome is an input of the embedded function.
-/

namespace KDP

/-! ## Semantic versions (model of the `github.com/blang/semver` dependency)

`semver.Make` requires a full `MAJOR.MINOR.PATCH` version: three dot-separated
numeric fields without leading zeroes, an optional pre-release suffix
(`-` separated, dot-separated alphanumeric identifiers, numeric identifiers
without leading zeroes) and optional build metadata after `+` (validated, then
ignored by `Compare`; `Equals` and `GT` are defined via `Compare`, so build
metadata is dropped at parse time here). -/

/-- A parsed semantic version. Build metadata is not retained because the Go
library's `Compare`/`Equals`/`GT` ignore it. -/
structure SemVer where
  major : Nat
  minor : Nat
  patch : Nat
  pre : List String
deriving DecidableEq, Repr

def zeroVersion : SemVer := ⟨0, 0, 0, []⟩

def isDigit (c : Char) : Bool := '0' ≤ c && c ≤ '9'

def isAlphanumChar (c : Char) : Bool :=
  isDigit c || ('a' ≤ c && c ≤ 'z') || ('A' ≤ c && c ≤ 'Z') || c == '-'

/-- Split a character list at the first occurrence of `sep`
(Go `strings.SplitN(s, sep, 2)`); `none` when `sep` does not occur.
(Implemented on character lists: the corresponding `String` functions are
not kernel-reducible.) -/
def breakAtChar (sep : Char) : List Char → Option (List Char × List Char)
  | [] => none
  | c :: rest =>
    if c == sep then some ([], rest)
    else (breakAtChar sep rest).map (fun p => (c :: p.1, p.2))

/-- Split a character list at every occurrence of `sep`
(Go `strings.Split`). -/
def splitAtChar (sep : Char) : List Char → List (List Char)
  | [] => [[]]
  | c :: rest =>
    match splitAtChar sep rest with
    | [] => if c == sep then [[], []] else [[c]]
    | h :: t => if c == sep then [] :: h :: t else (c :: h) :: t

/-- Decimal digits to a number (`strconv.ParseUint` after validation). -/
def digitsToNat (l : List Char) : Nat :=
  l.foldl (fun n c => n * 10 + (c.toNat - '0'.toNat)) 0

/-- `containsOnly(s, numbers)` plus the non-empty check used by the parser. -/
def isNumericField (l : List Char) : Bool :=
  !l.isEmpty && l.all isDigit

/-- `hasLeadingZeroes`: more than one character and starting with '0'. -/
def hasLeadingZeroes : List Char → Bool
  | c :: _ :: _ => c == '0'
  | _ => false

def parseNatField (l : List Char) : Except String Nat :=
  if !isNumericField l then
    .error ("Invalid character(s) found in number " ++ ⟨l⟩)
  else if hasLeadingZeroes l then
    .error ("Number must not contain leading zeroes " ++ ⟨l⟩)
  else .ok (digitsToNat l)

/-- A pre-release identifier: non-empty, alphanumeric; purely numeric
identifiers must not have leading zeroes. -/
def validPreField (l : List Char) : Bool :=
  !l.isEmpty && l.all isAlphanumChar && (!(l.all isDigit) || !hasLeadingZeroes l)

/-- A build-metadata identifier: non-empty and alphanumeric. -/
def validBuildField (l : List Char) : Bool :=
  !l.isEmpty && l.all isAlphanumChar

/-- Model of `semver.Make` / `semver.Parse`: split into
`MAJOR.MINOR.rest` (Go `strings.SplitN(s, ".", 3)`), then split build
metadata (`+`) and pre-release (`-`) off the third field. -/
def semverMake (s : String) : Except String SemVer :=
  if s.data.isEmpty then .error "Version string empty"
  else
    match breakAtChar '.' s.data with
    | none => .error "No Major.Minor.Patch elements found"
    | some (majorStr, afterMajor) =>
      match breakAtChar '.' afterMajor with
      | none => .error "No Major.Minor.Patch elements found"
      | some (minorStr, patchFull) =>
        match parseNatField majorStr, parseNatField minorStr with
        | .ok major, .ok minor =>
          let (beforeBuild, buildPart) :=
            match breakAtChar '+' patchFull with
            | none => (patchFull, none)
            | some (a, b) => (a, some b)
          let (patchStr, prePart) :=
            match breakAtChar '-' beforeBuild with
            | none => (beforeBuild, none)
            | some (a, b) => (a, some b)
          match parseNatField patchStr with
          | .ok patch =>
            let preFields := match prePart with
              | none => []
              | some p => splitAtChar '.' p
            let buildFields := match buildPart with
              | none => []
              | some b => splitAtChar '.' b
            if preFields.all validPreField && buildFields.all validBuildField then
              .ok ⟨major, minor, patch, preFields.map (fun l => ⟨l⟩)⟩
            else .error ("Invalid pre-release or build metadata in " ++ s)
          | .error e => .error e
        | .error e, _ => .error e
        | _, .error e => .error e

def charListCompare : List Char → List Char → Ordering
  | [], [] => .eq
  | [], _ :: _ => .lt
  | _ :: _, [] => .gt
  | a :: as, b :: bs =>
    match compare a.toNat b.toNat with
    | .eq => charListCompare as bs
    | o => o

/-- Lexical comparison of strings (kernel-reducible). -/
def strCompare (a b : String) : Ordering := charListCompare a.data b.data

/-- Compare two pre-release identifiers: numeric identifiers order numerically
and precede alphanumeric identifiers, which order lexically. -/
def preFieldCompare (a b : String) : Ordering :=
  if a.data.all isDigit then
    if b.data.all isDigit then compare (digitsToNat a.data) (digitsToNat b.data)
    else .lt
  else
    if b.data.all isDigit then .gt else strCompare a b

def preListCompare : List String → List String → Ordering
  | [], [] => .eq
  | [], _ :: _ => .lt
  | _ :: _, [] => .gt
  | a :: as, b :: bs =>
    match preFieldCompare a b with
    | .eq => preListCompare as bs
    | o => o

/-- Model of `Version.Compare`: major, minor, patch numerically; a version
with pre-release identifiers sorts below the same version without them. -/
def semverCompare (a b : SemVer) : Ordering :=
  match compare a.major b.major with
  | .eq =>
    match compare a.minor b.minor with
    | .eq =>
      match compare a.patch b.patch with
      | .eq =>
        match a.pre, b.pre with
        | [], [] => .eq
        | [], _ :: _ => .gt
        | _ :: _, [] => .lt
        | _, _ => preListCompare a.pre b.pre
      | o => o
    | o => o
  | o => o

/-- `Version.GT`. -/
def semverGT (a b : SemVer) : Bool := semverCompare a b == .gt

/-- `Version.Equals` (defined via `Compare` in the Go library). -/
def semverEquals (a b : SemVer) : Bool := semverCompare a b == .eq

/-! ## Manifest objects

`manifest.Object` as consumed by the embedded code: identity
(group/kind/name), annotations (`UnstructuredObject().GetAnnotations()`),
and — for `v1` `List` wrappers — the element objects that
`EachListItem`/`manifest.NewObject` would produce. The type is an inductive
because List wrappers contain objects. -/

/-- An owner reference as injected by `injectOwnerRef` (`SetNestedField` on
`metadata.ownerReferences`). -/
structure Owner where
  name : String
  uid : String
  group : String
  version : String
  kind : String
deriving DecidableEq, Repr

inductive Object where
  | mk (group : String) (kind : String) (name : String)
      (annotations : List (String × String)) (ownerRefs : List Owner)
      (listItems : List Object)

def Object.group : Object → String
  | .mk g _ _ _ _ _ => g

def Object.kind : Object → String
  | .mk _ k _ _ _ _ => k

def Object.name : Object → String
  | .mk _ _ n _ _ _ => n

def Object.annotations : Object → List (String × String)
  | .mk _ _ _ a _ _ => a

def Object.ownerRefs : Object → List Owner
  | .mk _ _ _ _ r _ => r

def Object.listItems : Object → List Object
  | .mk _ _ _ _ _ l => l

/-- `o.SetNestedField(ownerRefs, "metadata", "ownerReferences")`: replaces the
owner references, leaving every other field untouched. -/
def Object.withOwnerRefs : Object → List Owner → Object
  | .mk g k n a _ l, r => .mk g k n a r l

/-- Map lookup on annotations (`annotations[key]` with its `ok` flag). -/
def annotationLookup (annotations : List (String × String)) (key : String) :
    Option String :=
  (annotations.find? (fun kv => kv.1 == key)).map (·.2)

/-- `manifest.Objects`: the ordered working set threaded through the pipeline. -/
structure Objects where
  items : List Object
  blobs : List String
  path : String

/-! ## Addon objects and the version gate
(`pkg/patterns/addon/pkg/status/preflight.go`, final revision) -/

/-- `addonsv1alpha1.CommonStatus`. -/
structure CommonStatus where
  healthy : Bool
  errors : List String
deriving DecidableEq, Repr

/-- An `addonsv1alpha1.CommonObject`: it exposes `GetName` and
`SetCommonStatus`. -/
structure CommonObject where
  name : String
  status : CommonStatus
deriving DecidableEq, Repr

/-- `declarative.DeclarativeObject`: the gate type-asserts it to
`CommonObject`, which can fail, so the embedding distinguishes the two cases. -/
inductive DeclarativeObject where
  | common (c : CommonObject)
  | other
deriving DecidableEq, Repr

/-- `CommonObject.SetCommonStatus`. -/
def setCommonStatus (c : CommonObject) (s : CommonStatus) : CommonObject :=
  { c with status := s }

def operatorVersionKey : String := "addons.k8s.io/operator-version"

/-- Join strings with `.` separators. -/
def joinDots : List String → String
  | [] => ""
  | [s] => s
  | s :: rest => s ++ "." ++ joinDots rest

/-- `Version.String()`: `MAJOR.MINOR.PATCH` with a `-`-prefixed dot-separated
pre-release suffix when present. -/
def SemVer.render (v : SemVer) : String :=
  toString v.major ++ "." ++ toString v.minor ++ "." ++ toString v.patch ++
    (if v.pre.isEmpty then "" else "-" ++ joinDots v.pre)

/-- The possible errors of `versionCheck.VersionCheck`, as structured values
(the Go code produces them with `fmt.Errorf`). -/
inductive VCErr where
  | semverParse (value : String) (e : String)
  | notCommonObject
  | notQualified (needed : SemVer)
deriving DecidableEq, Repr

/-- The state built by `NewVersionCheck`: the engine's own version, already
parsed. -/
structure VersionCheckState where
  version : SemVer
deriving DecidableEq, Repr

/-- `NewVersionCheck(client, version)`: parses the engine version with
`semver.Make`; on failure it logs "skipping check" but returns `(nil, err)`,
so no checker value is produced. -/
def NewVersionCheck (version : String) : Except String VersionCheckState :=
  match semverMake version with
  | .error e => .error e
  | .ok v => .ok ⟨v⟩

/-- The annotation-scanning loop of `VersionCheck`: for each object, look up
`addons.k8s.io/operator-version`; if present, parse it with `semver.Make` —
a parse failure makes the whole call return `(false, err)` (the Go loop body
executes `return false, err`) — and keep the running maximum under
`Version.GT`. -/
def scanMaxVersion : List Object → SemVer → Except VCErr SemVer
  | [], maxVersion => .ok maxVersion
  | obj :: rest, maxVersion =>
    match annotationLookup obj.annotations operatorVersionKey with
    | none => scanMaxVersion rest maxVersion
    | some versionNeededStr =>
      match semverMake versionNeededStr with
      | .error e => .error (.semverParse versionNeededStr e)
      | .ok versionActual =>
        scanMaxVersion rest
          (if semverGT versionActual maxVersion then versionActual else maxVersion)

/-- Result of one `VersionCheck` call. `src` is the (possibly updated)
desired-state object after the call — the Go method mutates `src` through the
`CommonObject` interface — and `wroteStatus` records whether
`SetCommonStatus` was invoked. -/
structure VCResult where
  allowed : Bool
  err : Option VCErr
  src : DeclarativeObject
  wroteStatus : Bool
deriving DecidableEq, Repr

/-- `versionCheck.VersionCheck(ctx, src, objs)`: scan all objects for the
maximum required version; pass when none was found or the maximum does not
exceed the engine version; otherwise assert `src` to `CommonObject`, set the
unhealthy status on it and fail. -/
def VersionCheck (p : VersionCheckState) (src : DeclarativeObject)
    (objs : Objects) : VCResult :=
  match scanMaxVersion objs.items zeroVersion with
  | .error e => ⟨false, some e, src, false⟩
  | .ok maxVersion =>
    if semverEquals maxVersion zeroVersion || !semverGT maxVersion p.version then
      ⟨true, none, src, false⟩
    else
      match src with
      | .other => ⟨false, some .notCommonObject, src, false⟩
      | .common addonObject =>
        let status : CommonStatus :=
          ⟨false, ["Addons needs version " ++ maxVersion.render ++
            ", this operator is version " ++ p.version.render]⟩
        ⟨false, some (.notQualified maxVersion),
          .common (setCommonStatus addonObject status), true⟩

/-! ## List-kind expansion (`parseListKind`, reconciler.go) -/

/-- The loop body of `parseListKind`: a `v1` `List` item is replaced by the
objects `EachListItem`/`manifest.NewObject` yield from its elements (in
element order); every other item is appended unchanged. The
`EachListItem`/`NewObject` error paths have no analogue for the well-formed
in-memory objects modelled here. -/
def parseListKindItems : List Object → List Object
  | [] => []
  | item :: rest =>
    if item.group == "v1" && item.kind == "List" then
      item.listItems ++ parseListKindItems rest
    else
      item :: parseListKindItems rest

/-- `parseListKind(infos)`: expand `v1` `List` items, keep blobs and path. -/
def parseListKind (infos : Objects) : Objects :=
  ⟨parseListKindItems infos.items, infos.blobs, infos.path⟩

/-- An item matching `parseListKind`'s wrapper test
(`item.Group == "v1" && item.Kind == "List"`). -/
def isListKind (o : Object) : Bool :=
  o.group == "v1" && o.kind == "List"

/-! ## Apply-order sort

`manifest.Objects.Sort` and `DefaultObjectOrder` are code of this repository
that is not under src/ (reconciler.go only calls them), so they are modelled
from the spec. -/

/-- Modelled from the spec: the fixed kind-priority table of the apply-order
policy (`DefaultObjectOrder`, not under src/) — "dependency-free types such as
namespaces and service accounts before types that reference them, e.g.
workloads", a "fixed kind-priority table". Unlisted kinds come last. -/
def kindPriority (o : Object) : Nat :=
  match o.kind with
  | "CustomResourceDefinition" => 1
  | "Namespace" => 2
  | "ServiceAccount" => 3
  | "ClusterRole" => 4
  | "ClusterRoleBinding" => 5
  | "Role" => 6
  | "RoleBinding" => 7
  | _ => 1000

/-- Modelled from the spec: the strict order underlying `manifest.Objects.Sort`
(not under src/) — priority first, "ties broken by lexical name". -/
def objBefore (a b : Object) : Bool :=
  kindPriority a < kindPriority b ||
    (kindPriority a == kindPriority b && strCompare a.name b.name == .lt)

/-- Stable insertion of `a`: after every element strictly before it. -/
def insertObject (a : Object) : List Object → List Object
  | [] => [a]
  | b :: rest =>
    if objBefore b a then b :: insertObject a rest else a :: b :: rest

/-- Modelled from the spec: `manifest.Objects.Sort` (not under src/) — "a
stable, total order over a fixed kind-priority table with ties broken by
lexical name so re-runs are deterministic". -/
def sortObjectItems : List Object → List Object
  | [] => []
  | x :: xs => insertObject x (sortObjectItems xs)

def sortObjects (objs : Objects) : Objects :=
  { objs with items := sortObjectItems objs.items }

/-- `a` may precede `b` in apply order (no inversion): `b` is not strictly
before `a`. -/
def applyOrderLE (a b : Object) : Bool := !objBefore b a

/-- The whole list is in apply order: no consecutive inversion. -/
def isApplyOrdered : List Object → Bool
  | [] => true
  | [_] => true
  | a :: b :: rest => applyOrderLE a b && isApplyOrdered (b :: rest)

/-! ## Manifest build
(`Reconciler.BuildDeploymentObjectsWithFs`, reconciler.go)

Loading, raw-text transformation, parsing and object transformations (steps
1–5) are external collaborators here: the embedding takes the parsed,
transformed object set as input. The kustomize substitution path
(`IsKustomizeOptionUsed`) is not modelled (the kustomize option off). What
remains of the function is its final step 6: the apply-order sort, after
which the set is returned — List expansion is *not* part of the build. -/

def BuildDeploymentObjectsWithFs (parsed : Objects) : Objects :=
  sortObjects parsed

/-! ## Live-state lookup and the ignore filter (reconciler.go) -/

/-- Outcome of `GetObjectFromCluster(obj, r)` for one object: the live
object's annotations when it exists, not-found, or another lookup error. -/
inductive LookupResult where
  | found (annotations : List (String × String))
  | notFound
  | lookupError (e : String)

def ignoreAnnotationKey : String := "addons.k8s.io/ignore"

/-- The filtering loop of `reconcileExists`: an object whose live state
exists and carries `addons.k8s.io/ignore` is skipped (`continue`); lookup
errors (including not-found) are logged only and the object is kept. -/
def filterIgnored (live : Object → LookupResult) : List Object → List Object
  | [] => []
  | obj :: rest =>
    match live obj with
    | .found annotations =>
      if (annotationLookup annotations ignoreAnnotationKey).isSome then
        filterIgnored live rest
      else
        obj :: filterIgnored live rest
    | _ => obj :: filterIgnored live rest

/-! ## Owner-reference injection (`Reconciler.injectOwnerRef`, reconciler.go) -/

/-- `r.options.ownerFn`: resolves an owner for one object (given the
desired-state object and the full set); may fail or resolve nothing. -/
def OwnerFn : Type :=
  DeclarativeObject → Object → Objects → Except String (Option Owner)

/-- The loop of `injectOwnerRef`: a resolution error aborts; a nil owner, an
owner without name or UID, or an owner whose group/version is empty is
skipped (log only); otherwise the object's owner references are replaced by
the single resolved owner. -/
def injectOwnerRefItems (f : OwnerFn) (inst : DeclarativeObject)
    (objects : Objects) : List Object → Except String (List Object)
  | [] => .ok []
  | o :: rest =>
    match f inst o objects with
    | .error e => .error e
    | .ok none => (injectOwnerRefItems f inst objects rest).map (o :: ·)
    | .ok (some owner) =>
      if owner.name == "" || owner.uid == "" ||
          owner.group == "" || owner.version == "" then
        (injectOwnerRefItems f inst objects rest).map (o :: ·)
      else
        (injectOwnerRefItems f inst objects rest).map
          (o.withOwnerRefs [owner] :: ·)

/-- `Reconciler.injectOwnerRef`: returns immediately when no `ownerFn` is
configured. -/
def injectOwnerRef (ownerFn : Option OwnerFn) (inst : DeclarativeObject)
    (objects : Objects) : Except String Objects :=
  match ownerFn with
  | none => .ok objects
  | some f =>
    (injectOwnerRefItems f inst objects objects.items).map
      (fun items => { objects with items := items })

/-! ## The reconcile pass
(`Reconciler.Reconcile` and `Reconciler.reconcileExists`, reconciler.go) -/

/-- The errors a pass can return (`reconcile.Result` is always the empty
result in this code, so the returned error alone decides requeue). -/
inductive RError where
  | fetchFailed (e : String)
  | preflightFailed (e : String)
  | buildFailed (e : String)
  | versionCheckFailed (e : VCErr)
  | statusUpdateFailed (e : String)
  | ownerRefFailed (e : String)
  | applyFailed (e : String)
  | sinkFailed (e : String)

/-- Observable outcome of one pass: the returned error (`none` = success, no
requeue), whether the manifest was built and the gate ran, whether
`r.client.Status().Update` was attempted, the object set handed to
`kubectl.Apply` (`none` when apply was never invoked), and the desired-state
object as left by the pass. -/
structure ReconcileOutcome where
  error : Option RError
  builtManifest : Bool
  gateRan : Bool
  statusUpdateAttempted : Bool
  applyCalledWith : Option (List Object)
  src : DeclarativeObject

/-- The hooks provided by `r.options.status`, plus the outcomes of the
external calls the gate path makes. -/
structure StatusHooks where
  preflightResult : Except String Unit
  versionCheckState : VersionCheckState

/-- The version-gate block of `reconcileExists` (lines 168–183): run
`VersionCheck`; on error with `!isValidVersion`, attempt the status update —
an update failure returns the update error, success records the warning
event and returns `(reconcile.Result{}, nil)`; on error with a valid version
the error itself is returned. `Sum.inr` is an early return of the pass,
`Sum.inl` the desired-state object the pass continues with. -/
def versionGateStep (statusOpt : Option StatusHooks)
    (statusUpdateResult : Except String Unit) (inst : DeclarativeObject)
    (objects : Objects) : DeclarativeObject ⊕ ReconcileOutcome :=
  match statusOpt with
  | none => .inl inst
  | some hooks =>
    let vc := VersionCheck hooks.versionCheckState inst objects
    match vc.err with
    | none => .inl vc.src
    | some e =>
      if !vc.allowed then
        match statusUpdateResult with
        | .error ue =>
          .inr ⟨some (.statusUpdateFailed ue), true, true, true, none, vc.src⟩
        | .ok _ =>
          .inr ⟨none, true, true, true, none, vc.src⟩
      else
        .inr ⟨some (.versionCheckFailed e), true, true, false, none, vc.src⟩

/-- `Reconciler.reconcileExists`: build (sort) the manifest, run the version
gate, expand List kinds, inject owner references, filter ignored live
objects, then apply and notify the sink. The deferred
`r.options.status.Reconciled` call is log-only and not modelled; prune
argument construction and metrics do not affect the observable outcome
modelled here. -/
def reconcileExists (statusOpt : Option StatusHooks)
    (statusUpdateResult : Except String Unit) (ownerFn : Option OwnerFn)
    (live : Object → LookupResult) (applyResult : Except String Unit)
    (sinkResult : Option (Except String Unit)) (inst : DeclarativeObject)
    (parsed : Objects) : ReconcileOutcome :=
  let objects := BuildDeploymentObjectsWithFs parsed
  match versionGateStep statusOpt statusUpdateResult inst objects with
  | .inr outcome => outcome
  | .inl src =>
    let expanded := parseListKind objects
    match injectOwnerRef ownerFn src expanded with
    | .error e => ⟨some (.ownerRefFailed e), true, statusOpt.isSome, false, none, src⟩
    | .ok withOwners =>
      let filtered := filterIgnored live withOwners.items
      match applyResult with
      | .error e =>
        ⟨some (.applyFailed e), true, statusOpt.isSome, false, some filtered, src⟩
      | .ok _ =>
        match sinkResult with
        | some (.error e) =>
          ⟨some (.sinkFailed e), true, statusOpt.isSome, false, some filtered, src⟩
        | _ =>
          ⟨none, true, statusOpt.isSome, false, some filtered, src⟩

/-- Outcome of `r.client.Get(ctx, request.NamespacedName, instance)`. -/
inductive GetResult where
  | found (inst : DeclarativeObject)
  | notFound
  | getError (e : String)

/-- `Reconciler.Reconcile`: fetch the desired-state object; not-found ends
the pass successfully (created objects are garbage collected), any other
fetch error is returned for requeue; then the preflight hook, then
`reconcileExists`. `prototype` is the fresh `r.prototype.DeepCopyObject()`
the fetch would have populated. -/
def Reconcile (prototype : DeclarativeObject) (fetch : GetResult)
    (statusOpt : Option StatusHooks) (statusUpdateResult : Except String Unit)
    (ownerFn : Option OwnerFn) (live : Object → LookupResult)
    (applyResult : Except String Unit) (sinkResult : Option (Except String Unit))
    (parsed : Objects) : ReconcileOutcome :=
  match fetch with
  | .notFound => ⟨none, false, false, false, none, prototype⟩
  | .getError e => ⟨some (.fetchFailed e), false, false, false, none, prototype⟩
  | .found inst =>
    match statusOpt with
    | some hooks =>
      match hooks.preflightResult with
      | .error e => ⟨some (.preflightFailed e), false, false, false, none, inst⟩
      | .ok _ =>
        reconcileExists statusOpt statusUpdateResult ownerFn live applyResult
          sinkResult inst parsed
    | none =>
      reconcileExists statusOpt statusUpdateResult ownerFn live applyResult
        sinkResult inst parsed

/-! ## Dynamic watch subsystem
(`pkg/patterns/declarative/pkg/watch/dynamic.go`)

The goroutine spawned by `AddForGVR` is embedded as the infinite family of
its loop iterations: the environment supplies, per iteration, the outcome of
`client.Watch` (an open failure, or the finite event stream delivered before
the connection closed), and each iteration is rendered as the trace of
externally visible actions it performs. -/

/-- `schema.GroupVersionResource`. -/
structure GVR where
  group : String
  version : String
  resource : String
deriving DecidableEq, Repr

/-- `metav1.ListOptions` as used by the watch: server-side selectors. -/
structure ListOptions where
  labelSelector : String
  fieldSelector : String
deriving DecidableEq, Repr

/-- A watch event (`watch.Event`): its type and the identity of the object. -/
structure WatchEvent where
  eventType : String
  objectName : String
deriving DecidableEq, Repr

/-- `WatchDelay = 30 * time.Second`, in nanoseconds (Go `time.Duration`). -/
def WatchDelayNanos : Nat := 30 * 1000000000

/-- What one call of `client.Watch` leads to: the call fails, or a watch
opens and delivers finitely many events before its result channel closes. -/
inductive WatchOutcome where
  | openFailed (e : String)
  | opened (events : List WatchEvent)

/-- The externally visible actions of the watch loop. Callbacks are
identified by a tag so that "the same callback" is expressible. -/
inductive WatchAction where
  | watchCall (trigger : GVR) (options : ListOptions)
  | callbackInvoked (callback : Nat) (ev : WatchEvent)
  | watchStopped
  | sleep (nanos : Nat)
deriving DecidableEq, Repr

/-- `dynamicWatch.watchUntilClosed`: call `client.Watch(ctx, options)`; on
error log and return; otherwise forward every received event to the callback
and stop the watcher when the result channel closes. -/
def watchUntilClosed (outcome : WatchOutcome) (trigger : GVR)
    (options : ListOptions) (callback : Nat) : List WatchAction :=
  match outcome with
  | .openFailed _ => [.watchCall trigger options]
  | .opened events =>
    .watchCall trigger options ::
      events.map (fun ev => .callbackInvoked callback ev) ++ [.watchStopped]

/-- `dynamicWatch.newDynamicClient`: returns `dw.client.Resource(gvr)` and a
`nil` error, unconditionally. -/
def newDynamicClient (gvr : GVR) : Except String GVR := .ok gvr

/-- `dynamicWatch.AddForGVR`: create the per-resource client (whose error
branch is unreachable), then spawn the goroutine
`for { watchUntilClosed(...); time.Sleep(WatchDelay) }`. The result pairs
the value returned to the caller with the trace of the n-th loop iteration
(defined for every `n`: the loop has no exit). -/
def AddForGVR (trigger : GVR) (options : ListOptions) (callback : Nat)
    (env : Nat → WatchOutcome) :
    Except String Unit × (Nat → List WatchAction) :=
  match newDynamicClient trigger with
  | .error e => (.error ("creating client for (" ++ trigger.resource ++ "): " ++ e),
      fun _ => [])
  | .ok client =>
    (.ok (),
      fun n =>
        watchUntilClosed (env n) client options callback ++
          [.sleep WatchDelayNanos])

/-! ## Spec-side definitions and auxiliary predicates -/

/-- The spec's "track the maximum valid requirement seen across all objects",
written from the spec's words for comparison with the code: it *skips* (does
not fail on) unparsable annotation values. -/
def specMaxRequirement : List Object → SemVer → SemVer
  | [], m => m
  | o :: rest, m =>
    match annotationLookup o.annotations operatorVersionKey with
    | none => specMaxRequirement rest m
    | some s =>
      match semverMake s with
      | .error _ => specMaxRequirement rest m
      | .ok v => specMaxRequirement rest (if semverGT v m then v else m)

/-- The keep-decision of the filtering loop, as a predicate on the lookup
result: live objects carrying the ignore annotation are dropped, everything
else is kept. -/
def keepAfterLookup (r : LookupResult) : Bool :=
  match r with
  | .found anns => !(annotationLookup anns ignoreAnnotationKey).isSome
  | _ => true

/-- Select the `watchCall` actions of a trace. -/
def isWatchCallAction : WatchAction → Bool
  | .watchCall _ _ => true
  | _ => false

/-! ## Concrete fixtures used by counterexamples and witnesses -/

/-- A workload object carrying an operator-version requirement annotation. -/
def annotatedObj (v : String) : Object :=
  .mk "apps" "Deployment" "x" [(operatorVersionKey, v)] [] []

/-- Engine version 1.4.0, as `NewVersionCheck "1.4.0"` constructs it. -/
def engine140 : VersionCheckState := ⟨⟨1, 4, 0, []⟩⟩

/-- A healthy addon desired-state object. -/
def addonSrc : DeclarativeObject := .common ⟨"addon", ⟨true, []⟩⟩

/-- The object set of the spec's version-gate test vector:
annotation values 1.2.0, 1.5.0 and "invalid". -/
def gateTestObjs : Objects :=
  ⟨[annotatedObj "1.2.0", annotatedObj "1.5.0", annotatedObj "invalid"], [], ""⟩

/-- A plain (non-List) object. -/
def plainCM : Object := .mk "" "ConfigMap" "c" [] [] []

/-- A `v1` `List` wrapper whose single element is itself a `v1` `List`. -/
def innerList : Object := .mk "v1" "List" "inner" [] [] [plainCM]

def outerList : Object := .mk "v1" "List" "outer" [] [] [innerList]

/-- A workload named "a" (no priority-table entry). -/
def deployA : Object := .mk "apps" "Deployment" "a" [] [] []

/-- A service account (early in the apply-order priority table). -/
def saS : Object := .mk "" "ServiceAccount" "s" [] [] []

/-- A `v1` `List` wrapper named "b" holding the service account. -/
def wrapB : Object := .mk "v1" "List" "b" [] [] [saS]

/-- A set whose only operator-version annotation does not parse. -/
def unparsableOnlyObjs : Objects := ⟨[annotatedObj "invalid"], [], ""⟩

/-- An object whose live state carries the ignore annotation. -/
def ignoredLive : Object := .mk "" "ConfigMap" "ignored" [] [] []

/-- An object with no live state yet. -/
def freshObj : Object := .mk "" "ConfigMap" "new" [] [] []

/-- A live-state lookup: "ignored" exists and carries the ignore annotation,
everything else is not found. -/
def demoLive : Object → LookupResult := fun o =>
  if o.name == "ignored" then .found [(ignoreAnnotationKey, "")] else .notFound

/-- Does a watch action invoke a callback other than `cb`? (`true` when the
action is not a callback invocation at all.) -/
def invokesOnly (cb : Nat) (a : WatchAction) : Bool :=
  match a with
  | .callbackInvoked c _ => c == cb
  | _ => true

/-! ## Version gate: helper lemmas -/

/-- Every error return of `VersionCheck` carries `allowed = false`. -/
theorem versionCheck_err_not_allowed (st : VersionCheckState)
    (src : DeclarativeObject) (objs : Objects) :
    ∀ e, (VersionCheck st src objs).err = some e →
      (VersionCheck st src objs).allowed = false := by
  unfold VersionCheck
  cases hs : scanMaxVersion objs.items zeroVersion with
  | error e' => intro e _; rfl
  | ok maxV =>
    dsimp only
    by_cases hc : (semverEquals maxV zeroVersion || !semverGT maxV st.version) = true
    · simp only [if_pos hc]; intro e h; simp at h
    · simp only [if_neg hc]; rcases src with c | _ <;> intro e h <;> rfl

/-- When every operator-version annotation present parses, the scanning loop
completes and computes exactly the spec's maximum valid requirement. -/
theorem scanMaxVersion_of_parseable (items : List Object) (m : SemVer)
    (h : ∀ o ∈ items, ∀ s,
      annotationLookup o.annotations operatorVersionKey = some s →
      (semverMake s).toOption.isSome = true) :
    scanMaxVersion items m = .ok (specMaxRequirement items m) := by
  induction items generalizing m with
  | nil => rfl
  | cons o rest ih =>
    simp only [scanMaxVersion, specMaxRequirement]
    cases hl : annotationLookup o.annotations operatorVersionKey with
    | none => exact ih m (fun o' ho' => h o' (List.mem_cons_of_mem _ ho'))
    | some s =>
      have hp := h o (List.mem_cons_self _ _) s hl
      dsimp only
      cases hm : semverMake s with
      | error e => simp [hm, Except.toOption] at hp
      | ok v => exact ih _ (fun o' ho' => h o' (List.mem_cons_of_mem _ ho'))

/-- Without annotations the maximum requirement stays at its start value. -/
theorem specMaxRequirement_of_no_annotations (items : List Object) (m : SemVer)
    (h : ∀ o ∈ items, annotationLookup o.annotations operatorVersionKey = none) :
    specMaxRequirement items m = m := by
  induction items with
  | nil => rfl
  | cons o rest ih =>
    simp only [specMaxRequirement, h o (List.mem_cons_self _ _)]
    exact ih (fun o' ho' => h o' (List.mem_cons_of_mem _ ho'))

/-! ## Claim theorems: the version gate -/

/-- C1 (code_bug evidence): on the spec's own test vector — annotation values
1.2.0, 1.5.0 and "invalid", engine version 1.4.0 — `VersionCheck` does NOT
skip the unparsable value: it returns `(false, parse error)` from inside the
scanning loop (despite its log line "skipping this object"), never reaching
the maximum-requirement comparison, the minimum-required-1.5.0 failure, or
the status write. The last conjunct computes what the spec's skip semantics
would have found (1.5.0). -/
theorem versionCheck_unparsable_annotation_aborts_scan :
    NewVersionCheck "1.4.0" = .ok engine140 ∧
    (VersionCheck engine140 addonSrc gateTestObjs).allowed = false ∧
    (VersionCheck engine140 addonSrc gateTestObjs).err =
      some (.semverParse "invalid" "No Major.Minor.Patch elements found") ∧
    (VersionCheck engine140 addonSrc gateTestObjs).wroteStatus = false ∧
    specMaxRequirement gateTestObjs.items zeroVersion = ⟨1, 5, 0, []⟩ :=
  ⟨rfl, rfl, rfl, rfl, rfl⟩

/-- C2 (counterexample): a set whose only operator-version annotation does
not parse carries no parseable requirement, yet `VersionCheck` returns
`(false, non-nil error)` — not the `(true, nil)` the claim requires for such
sets. -/
theorem versionCheck_unparsable_annotation_not_passed :
    (semverMake "invalid").toOption = none ∧
    (VersionCheck engine140 addonSrc unparsableOnlyObjs).allowed = false ∧
    ((VersionCheck engine140 addonSrc unparsableOnlyObjs).err).isSome = true :=
  ⟨rfl, rfl, rfl⟩

/-- C2 (amended): for sets in which every operator-version annotation present
parses as a semantic version, `VersionCheck` returns `(true, nil)` exactly
when the maximum requirement is the zero version or does not exceed the
engine version, returns `(false, non-nil error)` exactly when the maximum
requirement is nonzero and strictly greater than the engine version, and in
particular passes when no object carries the annotation at all. -/
theorem versionCheck_decision (st : VersionCheckState)
    (src : DeclarativeObject) (objs : Objects)
    (hparse : ∀ o ∈ objs.items, ∀ s,
      annotationLookup o.annotations operatorVersionKey = some s →
      (semverMake s).toOption.isSome = true) :
    ((VersionCheck st src objs).allowed = true ∧
        (VersionCheck st src objs).err = none ↔
      (semverEquals (specMaxRequirement objs.items zeroVersion) zeroVersion = true ∨
        semverGT (specMaxRequirement objs.items zeroVersion) st.version = false)) ∧
    ((VersionCheck st src objs).allowed = false ∧
        ((VersionCheck st src objs).err).isSome = true ↔
      (semverEquals (specMaxRequirement objs.items zeroVersion) zeroVersion = false ∧
        semverGT (specMaxRequirement objs.items zeroVersion) st.version = true)) ∧
    ((∀ o ∈ objs.items,
        annotationLookup o.annotations operatorVersionKey = none) →
      (VersionCheck st src objs).allowed = true ∧
        (VersionCheck st src objs).err = none) := by
  have hscan := scanMaxVersion_of_parseable objs.items zeroVersion hparse
  refine ⟨?_, ?_, ?_⟩
  · unfold VersionCheck
    rw [hscan]; dsimp only
    by_cases h1 : semverEquals (specMaxRequirement objs.items zeroVersion) zeroVersion = true
    · simp [h1]
    · by_cases h2 : semverGT (specMaxRequirement objs.items zeroVersion) st.version = true
      · rw [if_neg (by simp [h1, h2])]
        rcases src with c | _ <;> simp [h1, h2]
      · rw [if_pos (by simp [h2])]
        simp [h1, h2]
  · unfold VersionCheck
    rw [hscan]; dsimp only
    by_cases h1 : semverEquals (specMaxRequirement objs.items zeroVersion) zeroVersion = true
    · rw [if_pos (by simp [h1])]
      simp [h1]
    · by_cases h2 : semverGT (specMaxRequirement objs.items zeroVersion) st.version = true
      · rw [if_neg (by simp [h1, h2])]
        rcases src with c | _ <;> simp [h1, h2]
      · rw [if_pos (by simp [h2])]
        simp [h1, h2]
  · intro hno
    have hMz := specMaxRequirement_of_no_annotations objs.items zeroVersion hno
    unfold VersionCheck
    rw [hscan, hMz]; dsimp only
    rw [if_pos (show (semverEquals zeroVersion zeroVersion
      || !semverGT zeroVersion st.version) = true from rfl)]
    exact ⟨rfl, rfl⟩

/-- C2 (witness): the amended decision theorem applied to the concrete set
with requirement 1.5.0 against engine version 1.4.0: the gate fails. -/
theorem versionCheck_decision_witness :
    (VersionCheck engine140 addonSrc ⟨[annotatedObj "1.5.0"], [], ""⟩).allowed
        = false ∧
    ((VersionCheck engine140 addonSrc ⟨[annotatedObj "1.5.0"], [], ""⟩).err).isSome
        = true := by
  have h := versionCheck_decision engine140 addonSrc
      ⟨[annotatedObj "1.5.0"], [], ""⟩ ?hp
  · exact h.2.1.mpr ⟨rfl, rfl⟩
  case hp =>
    intro o ho s hs
    have ho' : o = annotatedObj "1.5.0" := by simpa using ho
    subst ho'
    have hl : annotationLookup (annotatedObj "1.5.0").annotations
        operatorVersionKey = some "1.5.0" := rfl
    rw [hl] at hs
    have hs' : s = "1.5.0" := (Option.some.inj hs).symm
    subst hs'
    rfl

/-- C3 (code_bug evidence): with an unparsable engine version,
`NewVersionCheck` does not produce a fail-open gate — it logs
"skipping check" but returns `(nil, err)`, so no checker exists and the
caller receives the parse error instead of a gate that passes every set. -/
theorem newVersionCheck_unparsable_engine_errors :
    NewVersionCheck "invalid" = .error "No Major.Minor.Patch elements found" :=
  rfl

/-- C10: when `VersionCheck` passes (`allowed = true`), the desired-state
object is returned unmutated and `SetCommonStatus` was not invoked;
conversely every status write happens on a failing branch together with a
non-nil error. -/
theorem versionCheck_pass_frame (st : VersionCheckState)
    (src : DeclarativeObject) (objs : Objects) :
    ((VersionCheck st src objs).allowed = true →
      (VersionCheck st src objs).src = src ∧ (VersionCheck st src objs).err = none ∧
        (VersionCheck st src objs).wroteStatus = false) ∧
    ((VersionCheck st src objs).wroteStatus = true →
      (VersionCheck st src objs).allowed = false ∧
        ((VersionCheck st src objs).err).isSome = true) := by
  unfold VersionCheck
  cases hs : scanMaxVersion objs.items zeroVersion with
  | error e' => exact ⟨fun h => by simp at h, fun h => by simp at h⟩
  | ok maxV =>
    dsimp only
    by_cases hc : (semverEquals maxV zeroVersion || !semverGT maxV st.version) = true
    · rw [if_pos hc]
      exact ⟨fun _ => ⟨rfl, rfl, rfl⟩, fun h => by simp at h⟩
    · rw [if_neg hc]
      rcases src with c | _
      · exact ⟨fun h => by simp at h, fun _ => ⟨rfl, rfl⟩⟩
      · exact ⟨fun h => by simp at h, fun h => by simp at h⟩

/-- C10 (witness): a passing check (requirement 1.2.0, engine 1.4.0) leaves
the addon object untouched. -/
theorem versionCheck_pass_frame_witness :
    (VersionCheck engine140 addonSrc ⟨[annotatedObj "1.2.0"], [], ""⟩).src
        = addonSrc ∧
    (VersionCheck engine140 addonSrc ⟨[annotatedObj "1.2.0"], [], ""⟩).wroteStatus
        = false :=
  ⟨((versionCheck_pass_frame engine140 addonSrc
      ⟨[annotatedObj "1.2.0"], [], ""⟩).1 rfl).1,
   ((versionCheck_pass_frame engine140 addonSrc
      ⟨[annotatedObj "1.2.0"], [], ""⟩).1 rfl).2.2⟩

/-! ## Claim theorems: the reconcile pass -/

/-- C5: a not-found fetch ends the pass successfully — empty result, nil
error, no manifest build, no gate, no apply — while any other fetch error is
returned for requeue (still without building, gating or applying). -/
theorem reconcile_fetch_policy (prototype : DeclarativeObject)
    (statusOpt : Option StatusHooks) (upd : Except String Unit)
    (ownerFn : Option OwnerFn) (live : Object → LookupResult)
    (applyResult : Except String Unit) (sinkResult : Option (Except String Unit))
    (parsed : Objects) :
    Reconcile prototype .notFound statusOpt upd ownerFn live applyResult
        sinkResult parsed
      = ⟨none, false, false, false, none, prototype⟩ ∧
    (∀ e, Reconcile prototype (.getError e) statusOpt upd ownerFn live
        applyResult sinkResult parsed
      = ⟨some (.fetchFailed e), false, false, false, none, prototype⟩) :=
  ⟨rfl, fun _ => rfl⟩

/-- C4: when the version gate returns an error, the pass attempts the status
update and never invokes apply; a failing status update is reported as the
returned error, a successful one ends the pass with a nil error — in both
cases without applying. -/
theorem reconcileExists_gate_failure_no_apply (hooks : StatusHooks)
    (upd : Except String Unit) (ownerFn : Option OwnerFn)
    (live : Object → LookupResult) (applyResult : Except String Unit)
    (sinkResult : Option (Except String Unit)) (inst : DeclarativeObject)
    (parsed : Objects) (e : VCErr)
    (hgate : (VersionCheck hooks.versionCheckState inst
        (BuildDeploymentObjectsWithFs parsed)).err = some e) :
    (reconcileExists (some hooks) upd ownerFn live applyResult sinkResult
        inst parsed).applyCalledWith = none ∧
    (reconcileExists (some hooks) upd ownerFn live applyResult sinkResult
        inst parsed).statusUpdateAttempted = true ∧
    (∀ ue, upd = .error ue →
      (reconcileExists (some hooks) upd ownerFn live applyResult sinkResult
          inst parsed).error = some (.statusUpdateFailed ue)) ∧
    (upd = .ok () →
      (reconcileExists (some hooks) upd ownerFn live applyResult sinkResult
          inst parsed).error = none) := by
  have hall := versionCheck_err_not_allowed hooks.versionCheckState inst
    (BuildDeploymentObjectsWithFs parsed) e hgate
  simp only [reconcileExists, versionGateStep]
  rw [hgate, hall]
  cases upd with
  | error ue' => simp
  | ok u => simp

/-- C4 (witness): requirement 1.5.0 against engine 1.4.0 with a failing
status update: the pass returns the update error and apply is not invoked. -/
theorem reconcileExists_gate_failure_no_apply_witness :
    (reconcileExists (some ⟨.ok (), engine140⟩) (.error "update failed") none
        (fun _ => .notFound) (.ok ()) none addonSrc
        ⟨[annotatedObj "1.5.0"], [], ""⟩).applyCalledWith = none ∧
    (reconcileExists (some ⟨.ok (), engine140⟩) (.error "update failed") none
        (fun _ => .notFound) (.ok ()) none addonSrc
        ⟨[annotatedObj "1.5.0"], [], ""⟩).error
      = some (.statusUpdateFailed "update failed") := by
  have h := reconcileExists_gate_failure_no_apply ⟨.ok (), engine140⟩
    (.error "update failed") none (fun _ => .notFound) (.ok ()) none addonSrc
    ⟨[annotatedObj "1.5.0"], [], ""⟩ (.notQualified ⟨1, 5, 0, []⟩) rfl
  exact ⟨h.1, h.2.2.1 "update failed" rfl⟩

/-! ## Claim theorems: List expansion and apply ordering -/

/-- `parseListKindItems` distributes over append. -/
theorem parseListKindItems_append (xs ys : List Object) :
    parseListKindItems (xs ++ ys)
      = parseListKindItems xs ++ parseListKindItems ys := by
  induction xs with
  | nil => rfl
  | cons a rest ih =>
    simp only [List.cons_append, parseListKindItems, List.append_eq]
    by_cases h : (a.group == "v1" && a.kind == "List") = true
    · rw [if_pos h, if_pos h, ih, List.append_assoc]
    · rw [if_neg h, if_neg h, ih, List.cons_append]

/-- If no List item of the set has a List element, no List item survives
expansion. -/
theorem parseListKindItems_no_list (items : List Object)
    (h : ∀ o ∈ items, isListKind o = true →
      ∀ e ∈ o.listItems, isListKind e = false) :
    ∀ o ∈ parseListKindItems items, isListKind o = false := by
  induction items with
  | nil => intro o ho; simp [parseListKindItems] at ho
  | cons a rest ih =>
    intro o ho
    simp only [parseListKindItems] at ho
    by_cases ha : (a.group == "v1" && a.kind == "List") = true
    · rw [if_pos ha] at ho
      rcases List.mem_append.mp ho with h1 | h2
      · exact h a (List.mem_cons_self _ _) ha o h1
      · exact ih (fun o' ho' => h o' (List.mem_cons_of_mem _ ho')) o h2
    · rw [if_neg ha] at ho
      rcases List.mem_cons.mp ho with rfl | h2
      · simpa [isListKind] using ha
      · exact ih (fun o' ho' => h o' (List.mem_cons_of_mem _ ho')) o h2

/-- The original non-List objects appear in the expansion in their original
relative order. -/
theorem filter_nonList_sublist (items : List Object) :
    List.Sublist (items.filter (fun o => !isListKind o))
      (parseListKindItems items) := by
  induction items with
  | nil => simp [parseListKindItems]
  | cons a rest ih =>
    simp only [parseListKindItems, List.filter]
    by_cases ha : isListKind a = true
    · have ha' : (a.group == "v1" && a.kind == "List") = true := ha
      rw [if_pos ha', ha]
      exact ih.trans (List.sublist_append_right _ _)
    · have hb : isListKind a = false := by simpa using ha
      have ha' : (a.group == "v1" && a.kind == "List") = false := hb
      rw [if_neg (by simp [ha']), hb]
      exact ih.cons₂ a

/-- C6 (counterexample): a `v1` `List` wrapper around one element that is
itself a `v1` `List` expands to a set that still contains a List-kind
object, contradicting "exactly N non-List objects … and zero List-kind
objects remain". -/
theorem parseListKind_nested_list_remains :
    (parseListKind ⟨[outerList], [], ""⟩).items = [innerList] ∧
    isListKind innerList = true :=
  ⟨rfl, rfl⟩

/-- C6 (amended): for a set containing a List-kind wrapper whose N element
objects are all non-List (and whose other List items also have only non-List
elements), `parseListKind` yields exactly those N objects in place of the
wrapper, zero List-kind objects remain, and the non-List objects keep their
original relative order. -/
theorem parseListKind_expands_wrapper (pre post : List Object) (w : Object)
    (blobs : List String) (path : String)
    (hw : isListKind w = true)
    (helts : ∀ o ∈ w.listItems, isListKind o = false)
    (hside : ∀ o ∈ pre ++ post, isListKind o = true →
      ∀ e ∈ o.listItems, isListKind e = false) :
    (parseListKind ⟨pre ++ w :: post, blobs, path⟩).items
        = parseListKindItems pre ++ w.listItems ++ parseListKindItems post ∧
    (∀ o ∈ (parseListKind ⟨pre ++ w :: post, blobs, path⟩).items,
      isListKind o = false) ∧
    List.Sublist ((pre ++ w :: post).filter (fun o => !isListKind o))
      (parseListKind ⟨pre ++ w :: post, blobs, path⟩).items := by
  have hall : ∀ o ∈ pre ++ w :: post, isListKind o = true →
      ∀ e ∈ o.listItems, isListKind e = false := by
    intro o ho
    rcases List.mem_append.mp ho with h1 | h2
    · exact hside o (List.mem_append.mpr (Or.inl h1))
    · rcases List.mem_cons.mp h2 with rfl | h3
      · intro _; exact helts
      · exact hside o (List.mem_append.mpr (Or.inr h3))
  refine ⟨?_, parseListKindItems_no_list _ hall, filter_nonList_sublist _⟩
  show parseListKindItems (pre ++ w :: post) = _
  rw [parseListKindItems_append]
  have hw' : (w.group == "v1" && w.kind == "List") = true := hw
  simp only [parseListKindItems, if_pos hw', List.append_assoc]

/-- C6 (witness): a wrapper around the service account expands to exactly
that object, with no List-kind object left. -/
theorem parseListKind_expands_wrapper_witness :
    (parseListKind ⟨[] ++ wrapB :: [], [], ""⟩).items
      = parseListKindItems [] ++ wrapB.listItems ++ parseListKindItems [] ∧
    (∀ o ∈ (parseListKind ⟨[] ++ wrapB :: [], [], ""⟩).items,
      isListKind o = false) := by
  have h := parseListKind_expands_wrapper [] [] wrapB [] "" rfl ?helts ?hside
  · exact ⟨h.1, h.2.1⟩
  case helts =>
    intro o ho
    have ho' : o = saS := by simpa [wrapB, Object.listItems] using ho
    subst ho'
    rfl
  case hside => intro o ho; simp at ho

/-- C7 (counterexample): with built set [Deployment "a", List "b" [SA "s"]],
the sort leaves the wrapper after the deployment (both outside the priority
table), and expansion afterwards hands apply [Deployment, ServiceAccount] —
every List expanded, yet the set is NOT in apply order (the service account
must precede the workload), refuting "expansion before the final sort". -/
theorem reconcileExists_apply_set_not_applyOrdered :
    (reconcileExists none (.ok ()) none (fun _ => .notFound) (.ok ()) none
        .other ⟨[deployA, wrapB], [], ""⟩).applyCalledWith
      = some [deployA, saS] ∧
    isListKind deployA = false ∧
    isListKind saS = false ∧
    isApplyOrdered [deployA, saS] = false :=
  ⟨rfl, rfl, rfl, rfl⟩

/-- C7 (amended): List-kind expansion happens after the build's final sort:
whenever the gate lets a pass continue, the set handed to apply is the
ignore-filtered, in-place expansion of the already-sorted built set, so
expanded element objects occupy their wrapper's position instead of
participating in the sorted order. -/
theorem reconcileExists_expansion_after_sort (statusOpt : Option StatusHooks)
    (upd : Except String Unit) (live : Object → LookupResult)
    (applyResult : Except String Unit) (sinkResult : Option (Except String Unit))
    (inst : DeclarativeObject) (parsed : Objects) (src' : DeclarativeObject)
    (hgate : versionGateStep statusOpt upd inst
      (BuildDeploymentObjectsWithFs parsed) = .inl src') :
    (reconcileExists statusOpt upd none live applyResult sinkResult
        inst parsed).applyCalledWith
      = some (filterIgnored live
          (parseListKind (BuildDeploymentObjectsWithFs parsed)).items) := by
  simp only [reconcileExists]
  rw [hgate]
  simp only [injectOwnerRef]
  rcases applyResult with e | u
  · rfl
  · rcases sinkResult with _ | e'
    · rfl
    · rcases e' with e'' | u'' <;> rfl

/-- C7 (witness): the pipeline equation evaluated on the concrete built set
[Deployment "a", List "b" [SA "s"]] with no gate configured. -/
theorem reconcileExists_expansion_after_sort_witness :
    (reconcileExists none (.ok ()) none (fun _ => .notFound) (.ok ()) none
        .other ⟨[deployA, wrapB], [], ""⟩).applyCalledWith
      = some (filterIgnored (fun _ => .notFound)
          (parseListKind (BuildDeploymentObjectsWithFs
            ⟨[deployA, wrapB], [], ""⟩)).items) :=
  reconcileExists_expansion_after_sort none (.ok ()) (fun _ => .notFound)
    (.ok ()) none .other ⟨[deployA, wrapB], [], ""⟩ .other rfl

/-! ## Claim theorems: the ignore filter -/

/-- The filtering loop keeps exactly the objects whose lookup result passes
`keepAfterLookup`. -/
theorem filterIgnored_eq_filter (live : Object → LookupResult)
    (items : List Object) :
    filterIgnored live items
      = items.filter (fun o => keepAfterLookup (live o)) := by
  induction items with
  | nil => rfl
  | cons a rest ih =>
    simp only [filterIgnored, List.filter]
    cases hl : live a with
    | found anns =>
      dsimp only
      by_cases hig : (annotationLookup anns ignoreAnnotationKey).isSome = true
      · rw [if_pos hig]
        simp [keepAfterLookup, hig, ih]
      · rw [if_neg hig]
        simp [keepAfterLookup, hig, ih]
    | notFound => simp [keepAfterLookup, hl, ih]
    | lookupError e => simp [keepAfterLookup, hl, ih]

/-- C8: in the filtering step, a candidate whose live state exists and
carries `addons.k8s.io/ignore` is dropped from the apply set, while a
candidate whose lookup fails — not-found included — is never excluded for
that reason and proceeds. -/
theorem filterIgnored_policy (live : Object → LookupResult)
    (items : List Object) (obj : Object) (hmem : obj ∈ items) :
    (∀ anns, live obj = .found anns →
      (annotationLookup anns ignoreAnnotationKey).isSome = true →
      obj ∉ filterIgnored live items) ∧
    (live obj = .notFound → obj ∈ filterIgnored live items) ∧
    (∀ e, live obj = .lookupError e → obj ∈ filterIgnored live items) := by
  refine ⟨?_, ?_, ?_⟩
  · intro anns hf hig hContra
    rw [filterIgnored_eq_filter] at hContra
    have hk := (List.mem_filter.mp hContra).2
    rw [hf] at hk
    simp [keepAfterLookup, hig] at hk
  · intro hnf
    rw [filterIgnored_eq_filter]
    exact List.mem_filter.mpr ⟨hmem, by rw [hnf]; rfl⟩
  · intro e hle
    rw [filterIgnored_eq_filter]
    exact List.mem_filter.mpr ⟨hmem, by rw [hle]; rfl⟩

/-- C8 (witness): the live, ignore-annotated object is dropped; the
not-yet-live object proceeds. -/
theorem filterIgnored_policy_witness :
    ignoredLive ∉ filterIgnored demoLive [ignoredLive, freshObj] ∧
    freshObj ∈ filterIgnored demoLive [ignoredLive, freshObj] := by
  have h1 := filterIgnored_policy demoLive [ignoredLive, freshObj]
    ignoredLive (by simp)
  have h2 := filterIgnored_policy demoLive [ignoredLive, freshObj]
    freshObj (by simp)
  exact ⟨h1.1 [(ignoreAnnotationKey, "")] rfl rfl, h2.2.1 rfl⟩

/-! ## Claim theorems: the dynamic watch loop -/

/-- Callback invocations are never watch-call actions. -/
theorem filter_watchCall_map_callback (events : List WatchEvent) (cb : Nat) :
    (events.map (fun ev => WatchAction.callbackInvoked cb ev)).filter
      isWatchCallAction = [] := by
  induction events with
  | nil => rfl
  | cons e rest ih => simp [isWatchCallAction, ih]

/-- A trace of callback invocations for `cb` invokes only `cb`. -/
theorem all_invokesOnly_map (events : List WatchEvent) (cb : Nat) :
    (events.map (fun ev => WatchAction.callbackInvoked cb ev)).all
      (invokesOnly cb) = true := by
  induction events with
  | nil => rfl
  | cons e rest ih => simp_all [invokesOnly]

/-- C9: `AddForGVR` never surfaces an error to its caller, and for every
iteration of the spawned loop — the loop is defined at every index `n`, so
it never terminates — the trace opens exactly one watch with the same
trigger and options, invokes only the registered callback, and ends by
sleeping the fixed `WatchDelay` before the next identical iteration. -/
theorem addForGVR_reconnect_loop (trigger : GVR) (options : ListOptions)
    (callback : Nat) (env : Nat → WatchOutcome) (n : Nat) :
    (AddForGVR trigger options callback env).1 = .ok () ∧
    ((AddForGVR trigger options callback env).2 n).filter isWatchCallAction
      = [.watchCall trigger options] ∧
    ((AddForGVR trigger options callback env).2 n).getLast?
      = some (.sleep WatchDelayNanos) ∧
    ((AddForGVR trigger options callback env).2 n).all (invokesOnly callback)
      = true ∧
    (AddForGVR trigger options callback env).2 n ≠ [] := by
  refine ⟨rfl, ?_, ?_, ?_, ?_⟩
  · simp only [AddForGVR, newDynamicClient]
    cases henv : env n with
    | openFailed e => simp [watchUntilClosed, isWatchCallAction]
    | opened events =>
      simp [watchUntilClosed, isWatchCallAction, List.filter_append,
        filter_watchCall_map_callback]
  · simp only [AddForGVR, newDynamicClient]
    exact List.getLast?_concat _
  · simp only [AddForGVR, newDynamicClient]
    cases henv : env n with
    | openFailed e => rfl
    | opened events =>
      simp [watchUntilClosed, invokesOnly, all_invokesOnly_map]
  · simp only [AddForGVR, newDynamicClient]
    simp

end KDP
